import Mathlib

/-!
Verification of the per-timer time-accounting state machine of the
pro-timer repository (src/src/App.jsx, component SingleTimer).

The embedding mirrors the React state of one SingleTimer instance.
Timestamps and durations are JavaScript numbers used only through
integer-valued arithmetic here, so they are modelled as Int.  The
alarm-threshold input field can hold a number, the empty string, or a
non-numeric string; the JavaScript normalisation Number(x) || 0 is
modelled by toNum.  React state updates inside one handler or one tick
callback are modelled as a single atomic state transition.
-/

namespace ProTimer

/-- The value held by the alarmDuration state: a number (buttons store 15,
20 or 30; the numeric input stores a numeric string), the empty string,
or some other non-numeric string. -/
inductive AlarmInput where
  | num (n : Int)
  | empty
  | nonNumeric
deriving DecidableEq, Repr

/-- JavaScript Number(alarmDuration) || 0: a number maps to itself except
that 0 stays 0, the empty string maps to 0, and a non-numeric string
gives NaN which the || 0 turns into 0. -/
def toNum : AlarmInput → Int
  | AlarmInput.num n => n
  | AlarmInput.empty => 0
  | AlarmInput.nonNumeric => 0

/-- JavaScript falsiness of a nullable timestamp: null and 0 are falsy,
every other number is truthy.  Used by the guards !sessionStartTime in
handleStart and !alarmTriggeredTime in the tick callback. -/
def falsyOpt : Option Int → Bool
  | none => true
  | some x => decide (x = 0)

/-- The React state of one SingleTimer instance (App.jsx lines 37-53).
alarmInterval models whether the repeating 1000ms beep interval
(alarmIntervalRef) is currently scheduled. -/
structure State where
  isRunning : Bool
  startTime : Option Int
  accumulatedTime : Int
  displayTime : Int
  sessionStartTime : Option Int
  stopTime : Option Int
  alarmDuration : AlarmInput
  alarmTriggeredTime : Option Int
  isAlarmRinging : Bool
  alarmInterval : Bool
deriving DecidableEq, Repr

/-- The initial state of a freshly mounted SingleTimer: useState initial
values, alarmDuration starts at 15 and no beep interval is scheduled. -/
def initState : State :=
  { isRunning := false
    startTime := none
    accumulatedTime := 0
    displayTime := 0
    sessionStartTime := none
    stopTime := none
    alarmDuration := AlarmInput.num 15
    alarmTriggeredTime := none
    isAlarmRinging := false
    alarmInterval := false }

/-- triggerAlarm (App.jsx lines 91-97): records the trigger timestamp,
marks the alarm ringing, plays a beep, clears any previous repeating
interval and schedules a fresh one (so afterwards exactly one repeating
beep interval is scheduled). -/
def triggerAlarm (timestamp : Int) (s : State) : State :=
  { s with
      alarmTriggeredTime := some timestamp
      isAlarmRinging := true
      alarmInterval := true }

/-- stopAlarm (App.jsx lines 99-105): clears the repeating beep interval
if one is scheduled and marks the alarm not ringing. -/
def stopAlarm (s : State) : State :=
  { s with alarmInterval := false, isAlarmRinging := false }

/-- handleStart (App.jsx lines 133-142): sets sessionStartTime to now when
it is falsy (null, or the timestamp 0), sets startTime to now, marks the
timer running and clears stopTime.  The audio-context resume attempt on
line 135 does not touch the timer state. -/
def handleStart (now : Int) (s : State) : State :=
  { s with
      sessionStartTime := if falsyOpt s.sessionStartTime then some now else s.sessionStartTime
      startTime := some now
      isRunning := true
      stopTime := none }

/-- handleStop (App.jsx lines 144-151): adds now - startTime to
accumulatedTime (JavaScript coerces a null startTime to 0), records
stopTime, marks the timer not running and stops the alarm.  Note that
displayTime is not recomputed here. -/
def handleStop (now : Int) (s : State) : State :=
  stopAlarm
    { s with
        accumulatedTime := s.accumulatedTime + (now - s.startTime.getD 0)
        stopTime := some now
        isRunning := false }

/-- handleReset (App.jsx lines 153-162): clears the run state, both
timestamps, the accumulated and displayed durations and the alarm trigger
record, and stops the alarm.  It does not touch alarmDuration. -/
def handleReset (s : State) : State :=
  stopAlarm
    { s with
        isRunning := false
        startTime := none
        accumulatedTime := 0
        displayTime := 0
        sessionStartTime := none
        stopTime := none
        alarmTriggeredTime := none }

/-- handleInputChange (App.jsx lines 164-167): stores the raw input value
(the empty string is kept as the empty string). -/
def handleInputChange (v : AlarmInput) (s : State) : State :=
  { s with alarmDuration := v }

/-- The body of the 50ms display interval callback (App.jsx lines
110-125): recomputes displayTime as accumulatedTime + (now - startTime),
and, when alarmTriggeredTime is falsy, fires the alarm when the
normalised threshold is positive and the total duration has reached
threshold * 60 * 1000 milliseconds. -/
def tickStep (now : Int) (s : State) : State :=
  let totalDuration := s.accumulatedTime + (now - s.startTime.getD 0)
  let s1 := { s with displayTime := totalDuration }
  if falsyOpt s.alarmTriggeredTime then
    let durationVal := toNum s.alarmDuration
    let alarmMs := durationVal * 60 * 1000
    if 0 < durationVal ∧ alarmMs ≤ totalDuration then triggerAlarm now s1 else s1
  else s1

/-- The operations that can act on a timer state: the three button
handlers, the display tick, and a change of the alarm-threshold input. -/
inductive Event where
  | start (t : Int)
  | pause (t : Int)
  | tick (t : Int)
  | reset
  | setAlarm (v : AlarmInput)
deriving DecidableEq, Repr

/-- One transition.  The display interval executes its callback only
while isRunning (the effect at App.jsx lines 108-130 clears the interval
otherwise), so a tick is the identity on a non-running state. -/
def step : Event → State → State
  | Event.start t, s => handleStart t s
  | Event.pause t, s => handleStop t s
  | Event.tick t, s => if s.isRunning then tickStep t s else s
  | Event.reset, s => handleReset s
  | Event.setAlarm v, s => handleInputChange v s

/-- Run a list of events from a state. -/
def runFrom (s : State) : List Event → State
  | [] => s
  | e :: es => runFrom (step e s) es

/-- Guard for an event to be possible in the real component at clock
lower bound T: timed events carry a wall-clock timestamp that never
decreases, the start button is rendered only while not running, the
pause button only while running, and ticks fire only while running. -/
def evGuard (T : Int) (s : State) : Event → Bool
  | Event.start t => decide (T ≤ t) && !s.isRunning
  | Event.pause t => decide (T ≤ t) && s.isRunning
  | Event.tick t => decide (T ≤ t) && s.isRunning
  | Event.reset => true
  | Event.setAlarm _ => true

/-- The clock lower bound after an event. -/
def evTime (T : Int) : Event → Int
  | Event.start t => t
  | Event.pause t => t
  | Event.tick t => t
  | Event.reset => T
  | Event.setAlarm _ => T

/-- Well-formed event sequences from clock lower bound T and state s:
every event satisfies its guard, with timestamps non-decreasing. -/
def wfFrom (T : Int) (s : State) : List Event → Bool
  | [] => true
  | e :: es => evGuard T s e && wfFrom (evTime T e) (step e s) es

/-- Clock lower bound after a whole event sequence. -/
def timeAfter (T : Int) : List Event → Int
  | [] => T
  | e :: es => timeAfter (evTime T e) es

/-- True when the sequence contains no reset event. -/
def resetFree : List Event → Bool
  | [] => true
  | Event.reset :: _ => false
  | _ :: es => resetFree es

/-- Sum of the durations of the completed run-segments of an event
sequence, given the start timestamp of the currently open segment (if
any): a pause at t closes an open segment started at t0 and contributes
t - t0; a start opens a segment (re-basing any open one). -/
def segsAux : Option Int → List Event → Int
  | _, [] => 0
  | _, Event.start t :: es => segsAux (some t) es
  | some t0, Event.pause t :: es => (t - t0) + segsAux none es
  | none, Event.pause _ :: es => segsAux none es
  | o, Event.tick _ :: es => segsAux o es
  | o, Event.reset :: es => segsAux o es
  | o, Event.setAlarm _ :: es => segsAux o es

/-- Start timestamp of the run-segment still open after an event
sequence, if any. -/
def openAux : Option Int → List Event → Option Int
  | o, [] => o
  | _, Event.start t :: es => openAux (some t) es
  | _, Event.pause _ :: es => openAux none es
  | o, Event.tick _ :: es => openAux o es
  | o, Event.reset :: es => openAux o es
  | o, Event.setAlarm _ :: es => openAux o es

/-- The open-segment start of a state: its startTime while running. -/
def openOf (s : State) : Option Int :=
  if s.isRunning then s.startTime else none

/-- Threshold inputs that disable the alarm: zero, the empty string, or a
non-numeric string (claim C4 wording). -/
def noAlarmInput : AlarmInput → Bool
  | AlarmInput.num n => decide (n = 0)
  | AlarmInput.empty => true
  | AlarmInput.nonNumeric => true

/-- True when every setAlarm event in the sequence sets a disabling
threshold value. -/
def setAlarmsDisabled : List Event → Bool
  | [] => true
  | Event.setAlarm v :: es => noAlarmInput v && setAlarmsDisabled es
  | _ :: es => setAlarmsDisabled es

/-- Possible behaviors of the audio environment during one beep call:
the audio context ref is null (playAlarmSound returns at line 58), the
context works (possibly after a resume of a suspended context), or some
audio call throws an exception with a message. -/
inductive AudioOutcome where
  | noContext
  | contextOk
  | contextSuspended
  | throwsAt (msg : String)
deriving DecidableEq, Repr

/-- The body of the try block of playAlarmSound (App.jsx lines 57-85):
returns early when there is no audio context, otherwise builds and starts
the two-oscillator graph; any audio call may throw. -/
def tryBeepBody : AudioOutcome → Except String Unit
  | AudioOutcome.noContext => Except.ok ()
  | AudioOutcome.contextOk => Except.ok ()
  | AudioOutcome.contextSuspended => Except.ok ()
  | AudioOutcome.throwsAt msg => Except.error msg

/-- playAlarmSound (App.jsx lines 56-89): the whole body is wrapped in
try/catch; the catch logs the error and falls through, so the call always
returns normally and never touches the timer state s. -/
def playAlarmSound (o : AudioOutcome) (s : State) : Except String State :=
  match tryBeepBody o with
  | Except.ok _ => Except.ok s
  | Except.error _ => Except.ok s

/-! Helper lemmas about the transition system. -/

lemma wf_cons_iff (T : Int) (s : State) (e : Event) (es : List Event) :
    wfFrom T s (e :: es) = true ↔
      evGuard T s e = true ∧ wfFrom (evTime T e) (step e s) es = true := by
  simp [wfFrom, Bool.and_eq_true]

lemma runFrom_append (es fs : List Event) :
    ∀ s : State, runFrom s (es ++ fs) = runFrom (runFrom s es) fs := by
  induction es with
  | nil => intro s; rfl
  | cons e es ih => intro s; simp only [List.cons_append, runFrom]; exact ih (step e s)

lemma wfFrom_append (es fs : List Event) :
    ∀ (T : Int) (s : State),
      wfFrom T s (es ++ fs)
        = (wfFrom T s es && wfFrom (timeAfter T es) (runFrom s es) fs) := by
  induction es with
  | nil => intro T s; simp [wfFrom, timeAfter, runFrom]
  | cons e es ih =>
      intro T s
      simp only [List.cons_append, wfFrom, timeAfter, runFrom]
      rw [show es ++ fs = es.append fs from rfl] at ih
      rw [ih, Bool.and_assoc]

lemma resetFree_append (es fs : List Event) :
    resetFree (es ++ fs) = (resetFree es && resetFree fs) := by
  induction es with
  | nil => simp [resetFree]
  | cons e es ih => cases e <;> simp [resetFree, ih]

lemma tickStep_proj (t : Int) (s : State) :
    (tickStep t s).isRunning = s.isRunning ∧
    (tickStep t s).startTime = s.startTime ∧
    (tickStep t s).accumulatedTime = s.accumulatedTime ∧
    (tickStep t s).sessionStartTime = s.sessionStartTime ∧
    (tickStep t s).stopTime = s.stopTime ∧
    (tickStep t s).alarmDuration = s.alarmDuration ∧
    (tickStep t s).displayTime = s.accumulatedTime + (t - s.startTime.getD 0) := by
  by_cases h1 : falsyOpt s.alarmTriggeredTime = true
  · by_cases h2 : 0 < toNum s.alarmDuration ∧
        toNum s.alarmDuration * 60 * 1000 ≤ s.accumulatedTime + (t - s.startTime.getD 0)
    · simp [tickStep, triggerAlarm, h1, h2]
    · simp [tickStep, h1, h2]
  · simp [tickStep, h1]

lemma tickStep_no_refire (t x : Int) (s : State)
    (hx : s.alarmTriggeredTime = some x) (hpos : 0 < x) :
    (tickStep t s).alarmTriggeredTime = some x ∧
    (tickStep t s).isAlarmRinging = s.isAlarmRinging ∧
    (tickStep t s).alarmInterval = s.alarmInterval := by
  have hfalsy : falsyOpt s.alarmTriggeredTime = false := by
    rw [hx]; simp [falsyOpt]; omega
  unfold tickStep
  rw [hfalsy]
  simp [hx]

/-- Accumulation correctness along any well-formed reset-free sequence:
accumulatedTime grows by exactly the sum of the completed run-segment
durations of the sequence, and the open-segment start of the final state
is the one computed from the sequence. -/
lemma runSpec (es : List Event) :
    ∀ (T : Int) (s : State),
      wfFrom T s es = true → resetFree es = true →
      (s.isRunning = true → s.startTime.isSome = true) →
      (runFrom s es).accumulatedTime = s.accumulatedTime + segsAux (openOf s) es ∧
      openOf (runFrom s es) = openAux (openOf s) es ∧
      ((runFrom s es).isRunning = true → (runFrom s es).startTime.isSome = true) := by
  induction es with
  | nil =>
      intro T s _ _ hso
      refine ⟨by simp [segsAux, runFrom], by simp [openAux, runFrom], hso⟩
  | cons e es ih =>
      intro T s hwf hrf hso
      rw [wf_cons_iff] at hwf
      obtain ⟨hg, hwf2⟩ := hwf
      cases e with
      | start t =>
          have hnr : s.isRunning = false := by
            simp [evGuard, Bool.and_eq_true] at hg
            exact hg.2
          have hrf2 : resetFree es = true := by simpa [resetFree] using hrf
          have hopen : openOf s = none := by simp [openOf, hnr]
          have hstep : step (Event.start t) s = handleStart t s := rfl
          have ihr := ih t (handleStart t s) (by simpa [step] using hwf2) hrf2
            (by intro _; simp [handleStart])
          refine ⟨?_, ?_, ?_⟩
          · have := ihr.1
            simp only [runFrom, hstep]
            rw [this]
            simp [handleStart, openOf, hopen, segsAux]
          · have := ihr.2.1
            simp only [runFrom, hstep]
            rw [this]
            simp [handleStart, openOf, hopen, openAux]
          · simpa [runFrom, hstep] using ihr.2.2
      | pause t =>
          have hr : s.isRunning = true := by
            simp [evGuard, Bool.and_eq_true] at hg
            exact hg.2
          obtain ⟨st, hst⟩ := Option.isSome_iff_exists.mp (hso hr)
          have hrf2 : resetFree es = true := by simpa [resetFree] using hrf
          have hopen : openOf s = some st := by simp [openOf, hr, hst]
          have hstep : step (Event.pause t) s = handleStop t s := rfl
          have ihr := ih t (handleStop t s) (by simpa [step] using hwf2) hrf2
            (by intro h; simp [handleStop, stopAlarm] at h)
          refine ⟨?_, ?_, ?_⟩
          · have hopen2 : openOf (handleStop t s) = none := by
              simp [openOf, handleStop, stopAlarm]
            have := ihr.1
            rw [hopen2] at this
            simp only [runFrom, hstep]
            rw [this, hopen]
            simp [handleStop, stopAlarm, segsAux, hst]
            omega
          · have hopen2 : openOf (handleStop t s) = none := by
              simp [openOf, handleStop, stopAlarm]
            have := ihr.2.1
            rw [hopen2] at this
            simp only [runFrom, hstep]
            rw [this, hopen]
            simp [openAux]
          · simpa [runFrom, hstep] using ihr.2.2
      | tick t =>
          have hr : s.isRunning = true := by
            simp [evGuard, Bool.and_eq_true] at hg
            exact hg.2
          have hrf2 : resetFree es = true := by simpa [resetFree] using hrf
          have hstep : step (Event.tick t) s = tickStep t s := by simp [step, hr]
          obtain ⟨p1, p2, p3, p4, p5, p6, p7⟩ := tickStep_proj t s
          have ihr := ih t (tickStep t s) (by simpa [step, hr] using hwf2) hrf2
            (by intro h; rw [p2]; exact hso (by rw [p1] at h; exact h))
          have hopen2 : openOf (tickStep t s) = openOf s := by
            simp [openOf, p1, p2]
          refine ⟨?_, ?_, ?_⟩
          · have := ihr.1
            simp only [runFrom, hstep]
            rw [this, p3, hopen2]
            simp [segsAux]
          · have := ihr.2.1
            simp only [runFrom, hstep]
            rw [this, hopen2]
            simp [openAux]
          · simpa [runFrom, hstep] using ihr.2.2
      | reset =>
          simp [resetFree] at hrf
      | setAlarm v =>
          have hrf2 : resetFree es = true := by simpa [resetFree] using hrf
          have hstep : step (Event.setAlarm v) s = handleInputChange v s := rfl
          have ihr := ih (evTime T (Event.setAlarm v)) (handleInputChange v s)
            (by simpa [step] using hwf2) hrf2
            (by intro h; simp [handleInputChange] at h ⊢; exact hso h)
          have hopen2 : openOf (handleInputChange v s) = openOf s := by
            simp [openOf, handleInputChange]
          refine ⟨?_, ?_, ?_⟩
          · have := ihr.1
            simp only [runFrom, hstep]
            rw [this, hopen2]
            simp [handleInputChange, segsAux]
          · have := ihr.2.1
            simp only [runFrom, hstep]
            rw [this, hopen2]
            simp [openAux]
          · simpa [runFrom, hstep] using ihr.2.2

/-- Master invariant of reachable timer states, relative to the clock
lower bound T: stored timestamps are bounded by T and ordered
(sessionStartTime at or before startTime at or before stopTime), the
accumulated duration never exceeds the available wall-clock time, any
recorded alarm trigger timestamp is positive (so never falsy), and a
repeating beep interval is scheduled only while running and exactly when
the alarm is marked ringing. -/
def Inv (T : Int) (s : State) : Prop :=
  0 ≤ T ∧
  (s.isRunning = true → ∃ st, s.startTime = some st ∧ s.accumulatedTime ≤ st) ∧
  (s.isRunning = false → s.accumulatedTime ≤ T) ∧
  (∀ b, s.startTime = some b → b ≤ T ∧ ∃ a, s.sessionStartTime = some a ∧ a ≤ b) ∧
  (∀ a, s.sessionStartTime = some a → a ≤ T) ∧
  (∀ c, s.stopTime = some c → c ≤ T ∧ ∃ b, s.startTime = some b ∧ b ≤ c) ∧
  (∀ x, s.alarmTriggeredTime = some x → 0 < x) ∧
  s.isAlarmRinging = s.alarmInterval ∧
  (s.alarmInterval = true → s.isRunning = true)

lemma inv_init : Inv 0 initState := by
  refine ⟨le_refl 0, ?_, ?_, ?_, ?_, ?_, ?_, rfl, ?_⟩ <;> simp [initState]

lemma inv_mono (T T2 : Int) (s : State) (hle : T ≤ T2) (h : Inv T s) : Inv T2 s := by
  obtain ⟨hT, h1, h2, h3, h4, h5, h6, h7, h8⟩ := h
  refine ⟨le_trans hT hle, h1, ?_, ?_, ?_, ?_, h6, h7, h8⟩
  · intro hr; exact le_trans (h2 hr) hle
  · intro b hb; exact ⟨le_trans (h3 b hb).1 hle, (h3 b hb).2⟩
  · intro a ha; exact le_trans (h4 a ha) hle
  · intro c hc; exact ⟨le_trans (h5 c hc).1 hle, (h5 c hc).2⟩

lemma inv_step (T : Int) (s : State) (e : Event)
    (hg : evGuard T s e = true) (h : Inv T s) : Inv (evTime T e) (step e s) := by
  obtain ⟨hT, h1, h2, h3, h4, h5, h6, h7, h8⟩ := h
  cases e with
  | start t =>
      simp only [evGuard, Bool.and_eq_true, decide_eq_true_eq, Bool.not_eq_true'] at hg
      obtain ⟨hTt, hnr⟩ := hg
      have hacc : s.accumulatedTime ≤ t := le_trans (h2 hnr) hTt
      show Inv t (handleStart t s)
      refine ⟨le_trans hT hTt, ?_, ?_, ?_, ?_, ?_, ?_, ?_, ?_⟩
      · intro _
        exact ⟨t, by simp [handleStart], by simp [handleStart, hacc]⟩
      · intro hr; simp [handleStart] at hr
      · intro b hb
        replace hb : some t = some b := hb
        have hbt : t = b := Option.some.inj hb
        refine ⟨by omega, ?_⟩
        by_cases hf : falsyOpt s.sessionStartTime = true
        · exact ⟨t, by simp [handleStart, hf], by omega⟩
        · cases hs : s.sessionStartTime with
          | none => simp [falsyOpt, hs] at hf
          | some a =>
              have haT := h4 a hs
              refine ⟨a, ?_, by omega⟩
              rw [hs] at hf
              simp [handleStart, hf, hs]
      · intro a ha
        simp only [handleStart] at ha
        by_cases hf : falsyOpt s.sessionStartTime = true
        · rw [if_pos hf] at ha
          have := Option.some.inj ha
          omega
        · rw [if_neg hf] at ha
          exact le_trans (h4 a ha) hTt
      · intro c hc; simp [handleStart] at hc
      · intro x hx
        simp only [handleStart] at hx
        exact h6 x hx
      · simpa [handleStart] using h7
      · intro _; simp [handleStart]
  | pause t =>
      simp only [evGuard, Bool.and_eq_true, decide_eq_true_eq] at hg
      obtain ⟨hTt, hr⟩ := hg
      obtain ⟨st, hst, haccst⟩ := h1 hr
      have hstT : st ≤ T := (h3 st hst).1
      show Inv t (handleStop t s)
      refine ⟨le_trans hT hTt, ?_, ?_, ?_, ?_, ?_, ?_, ?_, ?_⟩
      · intro hcon; simp [handleStop, stopAlarm] at hcon
      · intro _
        simp [handleStop, stopAlarm, hst]
        omega
      · intro b hb
        simp only [handleStop, stopAlarm] at hb
        refine ⟨le_trans (h3 b hb).1 hTt, ?_⟩
        obtain ⟨a, ha, hab⟩ := (h3 b hb).2
        exact ⟨a, by simp [handleStop, stopAlarm, ha], hab⟩
      · intro a ha
        simp only [handleStop, stopAlarm] at ha
        exact le_trans (h4 a ha) hTt
      · intro c hc
        simp only [handleStop, stopAlarm] at hc
        replace hc : some t = some c := hc
        have htc : t = c := Option.some.inj hc
        refine ⟨by omega, st, by simp [handleStop, stopAlarm, hst], by omega⟩
      · intro x hx
        simp only [handleStop, stopAlarm] at hx
        exact h6 x hx
      · simp [handleStop, stopAlarm]
      · intro hcon; simp [handleStop, stopAlarm] at hcon
  | tick t =>
      simp only [evGuard, Bool.and_eq_true, decide_eq_true_eq] at hg
      obtain ⟨hTt, hr⟩ := hg
      obtain ⟨st, hst, haccst⟩ := h1 hr
      have hstT : st ≤ T := (h3 st hst).1
      show Inv t (step (Event.tick t) s)
      have hstep : step (Event.tick t) s = tickStep t s := by simp [step, hr]
      rw [hstep]
      obtain ⟨p1, p2, p3, p4, p5, p6, p7⟩ := tickStep_proj t s
      have base : ∀ y, (tickStep t s).alarmTriggeredTime = y →
          (y = s.alarmTriggeredTime ∨ y = some t) := by
        intro y hy
        by_cases hf : falsyOpt s.alarmTriggeredTime = true
        · by_cases hcond : 0 < toNum s.alarmDuration ∧
              toNum s.alarmDuration * 60 * 1000 ≤
                s.accumulatedTime + (t - s.startTime.getD 0)
          · right
            rw [← hy]
            simp [tickStep, triggerAlarm, hf, hcond]
          · left
            rw [← hy]
            simp [tickStep, hf, hcond]
        · left
          rw [← hy]
          simp [tickStep, hf]
      refine ⟨le_trans hT hTt, ?_, ?_, ?_, ?_, ?_, ?_, ?_, ?_⟩
      · intro _
        exact ⟨st, by rw [p2]; exact hst, by rw [p3]; exact haccst⟩
      · intro hcon; rw [p1, hr] at hcon; cases hcon
      · intro b hb
        rw [p2] at hb
        refine ⟨le_trans (h3 b hb).1 hTt, ?_⟩
        obtain ⟨a, ha, hab⟩ := (h3 b hb).2
        exact ⟨a, by rw [p4]; exact ha, hab⟩
      · intro a ha
        rw [p4] at ha
        exact le_trans (h4 a ha) hTt
      · intro c hc
        rw [p5] at hc
        refine ⟨le_trans (h5 c hc).1 hTt, ?_⟩
        obtain ⟨b, hb, hbc⟩ := (h5 c hc).2
        exact ⟨b, by rw [p2]; exact hb, hbc⟩
      · intro x hx
        rcases base (some x) hx with hold | hnew
        · exact h6 x hold.symm
        · have hxt : x = t := by
            simpa using hnew
          by_cases hf : falsyOpt s.alarmTriggeredTime = true
          · by_cases hcond : 0 < toNum s.alarmDuration ∧
                toNum s.alarmDuration * 60 * 1000 ≤
                  s.accumulatedTime + (t - s.startTime.getD 0)
            · have hgd : s.startTime.getD 0 = st := by simp [hst]
              rw [hgd] at hcond
              obtain ⟨hpos, hms⟩ := hcond
              omega
            · have : (tickStep t s).alarmTriggeredTime = s.alarmTriggeredTime := by
                simp [tickStep, hf, hcond]
              rw [this] at hx
              exact h6 x hx
          · have : (tickStep t s).alarmTriggeredTime = s.alarmTriggeredTime := by
              simp [tickStep, hf]
            rw [this] at hx
            exact h6 x hx
      · by_cases hf : falsyOpt s.alarmTriggeredTime = true
        · by_cases hcond : 0 < toNum s.alarmDuration ∧
              toNum s.alarmDuration * 60 * 1000 ≤
                s.accumulatedTime + (t - s.startTime.getD 0)
          · simp [tickStep, triggerAlarm, hf, hcond]
          · simp [tickStep, hf, hcond, h7]
        · simp [tickStep, hf, h7]
      · intro _
        rw [p1]; exact hr
  | reset =>
      show Inv T (handleReset s)
      refine ⟨hT, ?_, ?_, ?_, ?_, ?_, ?_, ?_, ?_⟩ <;>
        simp [handleReset, stopAlarm, hT]
  | setAlarm v =>
      show Inv T (handleInputChange v s)
      exact ⟨hT, h1, h2, h3, h4, h5, h6, h7, h8⟩

lemma inv_run (es : List Event) :
    ∀ (T : Int) (s : State), wfFrom T s es = true → Inv T s →
      Inv (timeAfter T es) (runFrom s es) := by
  induction es with
  | nil => intro T s _ h; exact h
  | cons e es ih =>
      intro T s hwf h
      rw [wf_cons_iff] at hwf
      exact ih (evTime T e) (step e s) hwf.2 (inv_step T s e hwf.1 h)

/-- Every state reached by a well-formed event sequence from the initial
state satisfies the master invariant at some clock bound. -/
lemma inv_reach (es : List Event) (h : wfFrom 0 initState es = true) :
    Inv (timeAfter 0 es) (runFrom initState es) :=
  inv_run es 0 initState h inv_init

lemma noAlarm_toNum (v : AlarmInput) (h : noAlarmInput v = true) : toNum v = 0 := by
  cases v with
  | num n =>
      simp [noAlarmInput] at h
      simp [toNum, h]
  | empty => rfl
  | nonNumeric => rfl

/-! Claim theorems. -/

/-- Claim C2, counterexample: the claim says reset returns every field,
including the configured alarm threshold, to its initial value; but after
setting the threshold to 20, reset leaves it at 20 while its initial
value is 15, so the reset state differs from the initial state. -/
theorem claim2_counterexample :
    (step Event.reset (step (Event.setAlarm (AlarmInput.num 20)) initState)).alarmDuration
        = AlarmInput.num 20 ∧
    initState.alarmDuration = AlarmInput.num 15 ∧
    step Event.reset (step (Event.setAlarm (AlarmInput.num 20)) initState) ≠ initState := by
  decide

/-- Claim C2 (amended): applying reset to any timer state yields the
fully-idle state in every field except the configured alarm threshold
(running, segmentStart, accumulated, displayed, sessionStart, stopTime,
alarmFiredAt and alarmRinging are returned to their initial values and
any ringing alert is silenced), while the alarm threshold keeps its
configured value. -/
theorem claim2_reset_idle_except_threshold (s : State) :
    step Event.reset s = { initState with alarmDuration := s.alarmDuration } := by
  cases s
  rfl

/-- Claim C5, counterexample: invoking the pause handler in the Idle
initial state (not running, segmentStart null) is not a no-op: the null
segmentStart is coerced to 0, so pause at clock time 100 adds 100 to
accumulated and records stopTime 100, changing the state. -/
theorem claim5_counterexample :
    initState.isRunning = false ∧ initState.startTime = none ∧
    (step (Event.pause 100) initState).accumulatedTime = 100 ∧
    (step (Event.pause 100) initState).stopTime = some 100 ∧
    step (Event.pause 100) initState ≠ initState := by
  decide

/-- Claim C5 (amended): the pause handler itself is unguarded.  Invoked
in a non-running state with null segmentStart it adds now - 0 = now to
accumulated, records stopTime = now and silences the alarm, leaving the
remaining fields unchanged; it is not a no-op.  (The UI renders the
pause control only while running, so such an invocation cannot arise
from the rendered controls.) -/
theorem claim5_pause_unguarded (s : State) (t : Int)
    (hnr : s.isRunning = false) (hst : s.startTime = none) :
    step (Event.pause t) s =
      { s with accumulatedTime := s.accumulatedTime + t
               stopTime := some t
               isRunning := false
               isAlarmRinging := false
               alarmInterval := false } := by
  cases s with
  | mk ir st0 acc disp sess stp ad att ring itv =>
      simp only at hnr hst
      subst hnr hst
      simp [step, handleStop, stopAlarm]

/-- Claim C5, witness for the amended theorem at the initial state and
clock time 7. -/
theorem claim5_witness :
    initState.isRunning = false ∧ initState.startTime = none ∧
    step (Event.pause 7) initState =
      { initState with accumulatedTime := initState.accumulatedTime + 7
                       stopTime := some 7
                       isRunning := false
                       isAlarmRinging := false
                       alarmInterval := false } :=
  ⟨rfl, rfl, claim5_pause_unguarded initState 7 rfl rfl⟩

/-- Claim C6: pausing a running timer whose current segment started at st
adds exactly now - st to accumulated, records stopTime = now, stops the
repeating beep (interval cleared and ringing flag lowered) and leaves
every other field, in particular alarmFiredAt, sessionStart and the
configured alarm threshold, unchanged. -/
theorem claim6_pause_effect (s : State) (t st : Int)
    (hr : s.isRunning = true) (hst : s.startTime = some st) :
    step (Event.pause t) s =
      { s with accumulatedTime := s.accumulatedTime + (t - st)
               stopTime := some t
               isRunning := false
               isAlarmRinging := false
               alarmInterval := false } := by
  cases s with
  | mk ir st0 acc disp sess stp ad att ring itv =>
      simp only at hst
      subst hst
      simp [step, handleStop, stopAlarm]

/-- A running, ringing state used to witness the pause-effect theorem. -/
def pauseWitnessState : State :=
  { initState with
      isRunning := true
      startTime := some 3
      accumulatedTime := 4
      sessionStartTime := some 3
      alarmTriggeredTime := some 2
      isAlarmRinging := true
      alarmInterval := true }

/-- Claim C6, witness: pausing the concrete running state at clock time
10 folds 10 - 3 into accumulated, sets stopTime and silences the beep
while keeping alarmFiredAt, sessionStart and the threshold. -/
theorem claim6_witness :
    pauseWitnessState.isRunning = true ∧ pauseWitnessState.startTime = some 3 ∧
    step (Event.pause 10) pauseWitnessState =
      { pauseWitnessState with
          accumulatedTime := pauseWitnessState.accumulatedTime + (10 - 3)
          stopTime := some 10
          isRunning := false
          isAlarmRinging := false
          alarmInterval := false } :=
  ⟨rfl, rfl, claim6_pause_effect pauseWitnessState 10 3 rfl rfl⟩

/-- Claim C9: a beep invocation always returns normally with the timer
state unchanged, whatever the audio environment does: a missing audio
context returns early, a working or suspended context plays the beep, and
a thrown exception is caught (and logged) inside playAlarmSound, so no
exception ever propagates to the timer state machine. -/
theorem claim9_beep_failure_contained (o : AudioOutcome) (s : State) :
    playAlarmSound o s = Except.ok s := by
  cases o <;> rfl

/-- A running state with a non-trivial open segment used to witness the
restart behavior. -/
def restartWitnessState : State :=
  { initState with
      isRunning := true
      startTime := some 100
      accumulatedTime := 7
      sessionStartTime := some 100 }

/-- Claim C10: invoking start on an already-running state re-bases
segmentStart to the current time without folding the elapsed in-progress
segment into accumulated, so when now is strictly after segmentStart any
subsequent tick reports a strictly smaller displayed duration than it
would have without the extra start: the in-progress time is lost. -/
theorem claim10_restart_loses_segment (s : State) (st t u : Int)
    (hr : s.isRunning = true) (hst : s.startTime = some st)
    (hlt : st < t) (_htu : t ≤ u) :
    (step (Event.start t) s).isRunning = true ∧
    (step (Event.start t) s).startTime = some t ∧
    (step (Event.start t) s).accumulatedTime = s.accumulatedTime ∧
    (step (Event.tick u) (step (Event.start t) s)).displayTime
      < (step (Event.tick u) s).displayTime := by
  have hr2 : (step (Event.start t) s).isRunning = true := by
    simp [step, handleStart]
  have e1 : step (Event.tick u) s = tickStep u s := by
    simp [step, hr]
  have e2 : step (Event.tick u) (step (Event.start t) s)
      = tickStep u (step (Event.start t) s) := by
    simp [step, handleStart]
  obtain ⟨_, _, _, _, _, _, d1⟩ := tickStep_proj u s
  obtain ⟨_, _, _, _, _, _, d2⟩ := tickStep_proj u (step (Event.start t) s)
  refine ⟨hr2, by simp [step, handleStart], by simp [step, handleStart], ?_⟩
  rw [e1, e2, d1, d2, hst]
  simp [step, handleStart]
  omega

/-- Claim C10, witness: restarting the concrete running state (segment
open since 100) at time 200 keeps accumulated at 7 but re-bases the
segment, so the tick at time 300 displays 7 + 100 = 107 instead of
7 + 200 = 207. -/
theorem claim10_witness :
    restartWitnessState.isRunning = true ∧
    restartWitnessState.startTime = some 100 ∧
    ((step (Event.start 200) restartWitnessState).isRunning = true ∧
     (step (Event.start 200) restartWitnessState).startTime = some 200 ∧
     (step (Event.start 200) restartWitnessState).accumulatedTime
       = restartWitnessState.accumulatedTime ∧
     (step (Event.tick 300) (step (Event.start 200) restartWitnessState)).displayTime
       < (step (Event.tick 300) restartWitnessState).displayTime) :=
  ⟨rfl, rfl,
    claim10_restart_loses_segment restartWitnessState 100 200 300 rfl rfl
      (by decide) (by decide)⟩

/-- Claim C4: starting from any state with no alarm fired, no beep
interval scheduled and a disabling threshold (zero, empty or
non-numeric), any sequence of operations whose threshold changes all
stay disabling never fires the alarm: alarmFiredAt stays unset, the
ringing flag stays down and no repeating beep is ever scheduled, no
matter how large the displayed duration grows. -/
theorem claim4_disabled_threshold_never_fires (s : State) (es : List Event)
    (h1 : s.alarmTriggeredTime = none) (h2 : s.isAlarmRinging = false)
    (h3 : s.alarmInterval = false) (h4 : noAlarmInput s.alarmDuration = true)
    (h5 : setAlarmsDisabled es = true) :
    (runFrom s es).alarmTriggeredTime = none ∧
    (runFrom s es).isAlarmRinging = false ∧
    (runFrom s es).alarmInterval = false := by
  induction es generalizing s with
  | nil => exact ⟨h1, h2, h3⟩
  | cons e es ih =>
      simp only [runFrom]
      cases e with
      | start t =>
          refine ih (handleStart t s) h1 h2 h3 h4 ?_
          simpa [setAlarmsDisabled] using h5
      | pause t =>
          refine ih (handleStop t s) h1 rfl rfl h4 ?_
          simpa [setAlarmsDisabled] using h5
      | tick t =>
          have h5' : setAlarmsDisabled es = true := by
            simpa [setAlarmsDisabled] using h5
          by_cases hrun : s.isRunning = true
          · have hz : toNum s.alarmDuration = 0 := noAlarm_toNum _ h4
            have hid : step (Event.tick t) s
                = { s with displayTime :=
                      s.accumulatedTime + (t - s.startTime.getD 0) } := by
              simp [step, hrun, tickStep, falsyOpt, h1, hz]
            rw [hid]
            exact ih _ h1 h2 h3 h4 h5'
          · have hid : step (Event.tick t) s = s := by
              simp [step, hrun]
            rw [hid]
            exact ih s h1 h2 h3 h4 h5'
      | reset =>
          refine ih (handleReset s) rfl rfl rfl h4 ?_
          simpa [setAlarmsDisabled] using h5
      | setAlarm v =>
          have h5s : noAlarmInput v = true ∧ setAlarmsDisabled es = true := by
            simpa [setAlarmsDisabled, Bool.and_eq_true] using h5
          exact ih (handleInputChange v s) h1 h2 h3 h5s.1 h5s.2

/-- Claim C4, witness: with the threshold input cleared to the empty
string, a session running for over sixteen hours never fires the alarm,
even after the threshold is retyped as the literal 0. -/
theorem claim4_witness :
    ({ initState with alarmDuration := AlarmInput.empty } : State).alarmTriggeredTime
        = none ∧
    ({ initState with alarmDuration := AlarmInput.empty } : State).isAlarmRinging
        = false ∧
    ({ initState with alarmDuration := AlarmInput.empty } : State).alarmInterval
        = false ∧
    noAlarmInput ({ initState with
        alarmDuration := AlarmInput.empty } : State).alarmDuration = true ∧
    setAlarmsDisabled
        [Event.start 0, Event.tick 60000000,
         Event.setAlarm (AlarmInput.num 0), Event.tick 60000001] = true ∧
    ((runFrom { initState with alarmDuration := AlarmInput.empty }
        [Event.start 0, Event.tick 60000000,
         Event.setAlarm (AlarmInput.num 0), Event.tick 60000001]).alarmTriggeredTime
        = none ∧
     (runFrom { initState with alarmDuration := AlarmInput.empty }
        [Event.start 0, Event.tick 60000000,
         Event.setAlarm (AlarmInput.num 0), Event.tick 60000001]).isAlarmRinging
        = false ∧
     (runFrom { initState with alarmDuration := AlarmInput.empty }
        [Event.start 0, Event.tick 60000000,
         Event.setAlarm (AlarmInput.num 0), Event.tick 60000001]).alarmInterval
        = false) :=
  ⟨rfl, rfl, rfl, rfl, by decide,
    claim4_disabled_threshold_never_fires
      { initState with alarmDuration := AlarmInput.empty }
      [Event.start 0, Event.tick 60000000,
       Event.setAlarm (AlarmInput.num 0), Event.tick 60000001]
      rfl rfl rfl rfl (by decide)⟩

/-- Claim C3: along any reachable execution, once alarmFiredAt holds a
value a tick never changes it or re-triggers the alarm side effect (the
ringing flag and the beep interval are untouched by further ticks), no
operation other than reset changes it, and an unset alarmFiredAt can only
become set by a tick taken while the timer is running. -/
theorem claim3_alarm_once (es : List Event)
    (hwf : wfFrom 0 initState es = true) :
    (∀ x, (runFrom initState es).alarmTriggeredTime = some x →
      ∀ t, (step (Event.tick t) (runFrom initState es)).alarmTriggeredTime = some x ∧
        (step (Event.tick t) (runFrom initState es)).isAlarmRinging
          = (runFrom initState es).isAlarmRinging ∧
        (step (Event.tick t) (runFrom initState es)).alarmInterval
          = (runFrom initState es).alarmInterval) ∧
    (∀ x e, (runFrom initState es).alarmTriggeredTime = some x →
      e ≠ Event.reset → (step e (runFrom initState es)).alarmTriggeredTime = some x) ∧
    (∀ e, (runFrom initState es).alarmTriggeredTime = none →
      (step e (runFrom initState es)).alarmTriggeredTime ≠ none →
      (∃ t, e = Event.tick t) ∧ (runFrom initState es).isRunning = true) := by
  have hInv := inv_reach es hwf
  obtain ⟨-, -, -, -, -, -, h6, -, -⟩ := hInv
  have tickCase : ∀ x, (runFrom initState es).alarmTriggeredTime = some x →
      ∀ t, (step (Event.tick t) (runFrom initState es)).alarmTriggeredTime = some x ∧
        (step (Event.tick t) (runFrom initState es)).isAlarmRinging
          = (runFrom initState es).isAlarmRinging ∧
        (step (Event.tick t) (runFrom initState es)).alarmInterval
          = (runFrom initState es).alarmInterval := by
    intro x hx t
    by_cases hrun : (runFrom initState es).isRunning = true
    · have hstep : step (Event.tick t) (runFrom initState es)
          = tickStep t (runFrom initState es) := by
        simp [step, hrun]
      rw [hstep]
      exact tickStep_no_refire t x (runFrom initState es) hx (h6 x hx)
    · have hstep : step (Event.tick t) (runFrom initState es)
          = runFrom initState es := by
        simp [step, hrun]
      rw [hstep]
      exact ⟨hx, rfl, rfl⟩
  refine ⟨tickCase, ?_, ?_⟩
  · intro x e hx hne
    cases e with
    | start t => simpa [step, handleStart] using hx
    | pause t => simpa [step, handleStop, stopAlarm] using hx
    | tick t => exact (tickCase x hx t).1
    | reset => exact absurd rfl hne
    | setAlarm v => simpa [step, handleInputChange] using hx
  · intro e hnone hsome
    cases e with
    | start t => simp [step, handleStart, hnone] at hsome
    | pause t => simp [step, handleStop, stopAlarm, hnone] at hsome
    | tick t =>
        refine ⟨⟨t, rfl⟩, ?_⟩
        by_cases hrun : (runFrom initState es).isRunning = true
        · exact hrun
        · simp [step, hrun, hnone] at hsome
    | reset => simp [step, handleReset, stopAlarm] at hsome
    | setAlarm v => simp [step, handleInputChange, hnone] at hsome

/-- Claim C3, witness: on the trace that starts at time 0 and ticks at
time 900000 (15 minutes, the default threshold) the alarm has fired, and
the at-most-once conclusions hold there. -/
theorem claim3_witness :
    wfFrom 0 initState [Event.start 0, Event.tick 900000] = true ∧
    ((∀ x, (runFrom initState [Event.start 0, Event.tick 900000]).alarmTriggeredTime
          = some x →
      ∀ t, (step (Event.tick t)
              (runFrom initState [Event.start 0, Event.tick 900000])).alarmTriggeredTime
            = some x ∧
        (step (Event.tick t)
            (runFrom initState [Event.start 0, Event.tick 900000])).isAlarmRinging
          = (runFrom initState [Event.start 0, Event.tick 900000]).isAlarmRinging ∧
        (step (Event.tick t)
            (runFrom initState [Event.start 0, Event.tick 900000])).alarmInterval
          = (runFrom initState [Event.start 0, Event.tick 900000]).alarmInterval) ∧
    (∀ x e, (runFrom initState [Event.start 0, Event.tick 900000]).alarmTriggeredTime
          = some x →
      e ≠ Event.reset →
      (step e (runFrom initState [Event.start 0, Event.tick 900000])).alarmTriggeredTime
        = some x) ∧
    (∀ e, (runFrom initState [Event.start 0, Event.tick 900000]).alarmTriggeredTime
          = none →
      (step e (runFrom initState [Event.start 0, Event.tick 900000])).alarmTriggeredTime
        ≠ none →
      (∃ t, e = Event.tick t) ∧
        (runFrom initState [Event.start 0, Event.tick 900000]).isRunning = true)) :=
  ⟨by decide, claim3_alarm_once [Event.start 0, Event.tick 900000] (by decide)⟩

/-- Claim C7: in every reachable state the repeating beep interval is
scheduled only while the timer is running (a non-running state with a
scheduled repeating beep is unreachable), and both pause and reset
cancel the repeating beep and lower the ringing flag synchronously in
the very transition. -/
theorem claim7_no_orphan_beep (es : List Event)
    (hwf : wfFrom 0 initState es = true) :
    ((runFrom initState es).isRunning = false →
      (runFrom initState es).alarmInterval = false) ∧
    (∀ t, (step (Event.pause t) (runFrom initState es)).alarmInterval = false ∧
      (step (Event.pause t) (runFrom initState es)).isAlarmRinging = false) ∧
    ((step Event.reset (runFrom initState es)).alarmInterval = false ∧
      (step Event.reset (runFrom initState es)).isAlarmRinging = false) := by
  have hInv := inv_reach es hwf
  obtain ⟨-, -, -, -, -, -, -, -, h8⟩ := hInv
  refine ⟨?_, ?_, ?_⟩
  · intro hnr
    cases hi : (runFrom initState es).alarmInterval with
    | false => rfl
    | true => rw [h8 hi] at hnr; cases hnr
  · intro t
    constructor <;> simp [step, handleStop, stopAlarm]
  · constructor <;> simp [step, handleReset, stopAlarm]

/-- Claim C7, witness: after the alarm has fired and is ringing (start at
0, tick at 900000), the reachable-state conclusions hold; in particular
pausing at 900001 cancels the repeating beep. -/
theorem claim7_witness :
    wfFrom 0 initState [Event.start 0, Event.tick 900000] = true ∧
    (((runFrom initState [Event.start 0, Event.tick 900000]).isRunning = false →
        (runFrom initState [Event.start 0, Event.tick 900000]).alarmInterval = false) ∧
     (∀ t, (step (Event.pause t)
          (runFrom initState [Event.start 0, Event.tick 900000])).alarmInterval
            = false ∧
        (step (Event.pause t)
          (runFrom initState [Event.start 0, Event.tick 900000])).isAlarmRinging
            = false) ∧
     ((step Event.reset
          (runFrom initState [Event.start 0, Event.tick 900000])).alarmInterval
            = false ∧
      (step Event.reset
          (runFrom initState [Event.start 0, Event.tick 900000])).isAlarmRinging
            = false)) :=
  ⟨by decide, claim7_no_orphan_beep [Event.start 0, Event.tick 900000] (by decide)⟩

/-- Claim C8, counterexample: the claim says no operation other than
reset clears any of the three timestamps, but the start (resume)
operation clears stopTime: after start at 0 and pause at 10 the state
has stopTime 10, and a further start at 20 (which is not reset) sets
stopTime back to null. -/
theorem claim8_counterexample :
    wfFrom 0 initState [Event.start 0, Event.pause 10] = true ∧
    (runFrom initState [Event.start 0, Event.pause 10]).stopTime = some 10 ∧
    Event.start 20 ≠ Event.reset ∧
    (step (Event.start 20)
      (runFrom initState [Event.start 0, Event.pause 10])).stopTime = none := by
  decide

/-- Claim C8 (amended): in every reachable state in which sessionStart,
segmentStart and stopTime are all present, sessionStart at most
segmentStart at most stopTime holds; sessionStart and segmentStart are
never cleared by any operation other than reset, while stopTime is
cleared by reset and also by the start (resume) operation — start is the
one exception to the claim that no other operation clears any of the
three. -/
theorem claim8_timestamp_order (es : List Event)
    (hwf : wfFrom 0 initState es = true) :
    (∀ a b c, (runFrom initState es).sessionStartTime = some a →
      (runFrom initState es).startTime = some b →
      (runFrom initState es).stopTime = some c → a ≤ b ∧ b ≤ c) ∧
    (∀ e, e ≠ Event.reset →
      ((runFrom initState es).sessionStartTime ≠ none →
        (step e (runFrom initState es)).sessionStartTime ≠ none) ∧
      ((runFrom initState es).startTime ≠ none →
        (step e (runFrom initState es)).startTime ≠ none)) ∧
    (∀ e, e ≠ Event.reset → (∀ u, e ≠ Event.start u) →
      ((runFrom initState es).stopTime ≠ none →
        (step e (runFrom initState es)).stopTime ≠ none)) := by
  have hInv := inv_reach es hwf
  obtain ⟨-, -, -, h3, -, h5, -, -, -⟩ := hInv
  refine ⟨?_, ?_, ?_⟩
  · intro a b c ha hb hc
    obtain ⟨-, a2, ha2, hab⟩ := h3 b hb
    obtain ⟨-, b2, hb2, hbc⟩ := h5 c hc
    rw [ha] at ha2
    rw [hb] at hb2
    have : a2 = a := by
      have := Option.some.inj ha2
      omega
    have hb2b : b2 = b := by
      have := Option.some.inj hb2
      omega
    constructor <;> omega
  · intro e hne
    cases e with
    | start t =>
        constructor
        · intro _
          by_cases hf : falsyOpt (runFrom initState es).sessionStartTime = true
          · simp [step, handleStart, hf]
          · simpa [step, handleStart, hf] using ‹_›
        · intro _
          simp [step, handleStart]
    | pause t =>
        constructor <;> intro h <;> simpa [step, handleStop, stopAlarm] using h
    | tick t =>
        obtain ⟨-, p2, -, p4, -, -, -⟩ := tickStep_proj t (runFrom initState es)
        by_cases hrun : (runFrom initState es).isRunning = true
        · have hstep : step (Event.tick t) (runFrom initState es)
              = tickStep t (runFrom initState es) := by
            simp [step, hrun]
          rw [hstep]
          constructor <;> intro h
          · rw [p4]; exact h
          · rw [p2]; exact h
        · have hstep : step (Event.tick t) (runFrom initState es)
              = runFrom initState es := by
            simp [step, hrun]
          rw [hstep]
          exact ⟨fun h => h, fun h => h⟩
    | reset => exact absurd rfl hne
    | setAlarm v =>
        constructor <;> intro h <;> simpa [step, handleInputChange] using h
  · intro e hne hns
    cases e with
    | start t => exact absurd rfl (hns t)
    | pause t =>
        intro _
        simp [step, handleStop, stopAlarm]
    | tick t =>
        obtain ⟨-, -, -, -, p5, -, -⟩ := tickStep_proj t (runFrom initState es)
        by_cases hrun : (runFrom initState es).isRunning = true
        · have hstep : step (Event.tick t) (runFrom initState es)
              = tickStep t (runFrom initState es) := by
            simp [step, hrun]
          rw [hstep]
          intro h
          rw [p5]
          exact h
        · have hstep : step (Event.tick t) (runFrom initState es)
              = runFrom initState es := by
            simp [step, hrun]
          rw [hstep]
          exact fun h => h
    | reset => exact absurd rfl hne
    | setAlarm v =>
        intro h
        simpa [step, handleInputChange] using h

/-- Claim C8, witness: after start at 5 and pause at 10 all three
timestamps are present (5, 5, 10) and the amended conclusions hold on
that reachable state. -/
theorem claim8_witness :
    wfFrom 0 initState [Event.start 5, Event.pause 10] = true ∧
    (runFrom initState [Event.start 5, Event.pause 10]).sessionStartTime = some 5 ∧
    (runFrom initState [Event.start 5, Event.pause 10]).startTime = some 5 ∧
    (runFrom initState [Event.start 5, Event.pause 10]).stopTime = some 10 ∧
    ((∀ a b c,
        (runFrom initState [Event.start 5, Event.pause 10]).sessionStartTime = some a →
        (runFrom initState [Event.start 5, Event.pause 10]).startTime = some b →
        (runFrom initState [Event.start 5, Event.pause 10]).stopTime = some c →
        a ≤ b ∧ b ≤ c) ∧
     (∀ e, e ≠ Event.reset →
        ((runFrom initState [Event.start 5, Event.pause 10]).sessionStartTime ≠ none →
          (step e (runFrom initState [Event.start 5, Event.pause 10])).sessionStartTime
            ≠ none) ∧
        ((runFrom initState [Event.start 5, Event.pause 10]).startTime ≠ none →
          (step e (runFrom initState [Event.start 5, Event.pause 10])).startTime
            ≠ none)) ∧
     (∀ e, e ≠ Event.reset → (∀ u, e ≠ Event.start u) →
        ((runFrom initState [Event.start 5, Event.pause 10]).stopTime ≠ none →
          (step e (runFrom initState [Event.start 5, Event.pause 10])).stopTime
            ≠ none))) :=
  ⟨by decide, by decide, by decide, by decide,
    claim8_timestamp_order [Event.start 5, Event.pause 10] (by decide)⟩

/-- Claim C1, counterexample: displayed is recomputed only by the tick,
never by the pause handler, so observed while paused it can differ from
the sum of the completed run-segments.  On the reachable trace start at
0, tick at 10, pause at 20 the timer is not running, the sum of completed
run-segment durations is 20, but displayed still reads 10 (the value of
the last tick). -/
theorem claim1_counterexample :
    wfFrom 0 initState [Event.start 0, Event.tick 10, Event.pause 20] = true ∧
    resetFree [Event.start 0, Event.tick 10, Event.pause 20] = true ∧
    (runFrom initState [Event.start 0, Event.tick 10, Event.pause 20]).isRunning
      = false ∧
    segsAux none [Event.start 0, Event.tick 10, Event.pause 20] = 20 ∧
    (runFrom initState [Event.start 0, Event.tick 10, Event.pause 20]).displayTime
      = 10 ∧
    (runFrom initState [Event.start 0, Event.tick 10, Event.pause 20]).displayTime
      ≠ segsAux none [Event.start 0, Event.tick 10, Event.pause 20] := by
  decide

/-- Claim C1 (amended): at every observation point that coincides with a
display tick — the only moments displayed is recomputed, and ticks run
only while the timer is running — displayed equals the sum of the
durations of all completed run-segments plus the in-progress segment
(tick time minus the current segment start), independent of how many
pause/resume cycles occurred.  Between a pause and the next tick,
displayed retains the value computed by the last tick instead. -/
theorem claim1_displayed_at_tick (es : List Event) (t : Int)
    (hwf : wfFrom 0 initState (es ++ [Event.tick t]) = true)
    (hrf : resetFree (es ++ [Event.tick t]) = true) :
    (runFrom initState (es ++ [Event.tick t])).displayTime
      = segsAux none es + (t - (openAux none es).getD 0) ∧
    (runFrom initState es).isRunning = true := by
  rw [resetFree_append, Bool.and_eq_true] at hrf
  rw [wfFrom_append, Bool.and_eq_true] at hwf
  obtain ⟨hwf1, hwf2⟩ := hwf
  have hrun : (runFrom initState es).isRunning = true := by
    rw [wf_cons_iff] at hwf2
    have hg := hwf2.1
    simp only [evGuard, Bool.and_eq_true] at hg
    exact hg.2
  obtain ⟨hacc, hopen, -⟩ :=
    runSpec es 0 initState hwf1 hrf.1 (by intro h; simp [initState] at h)
  have hinit : openOf initState = none := by simp [openOf, initState]
  rw [hinit] at hacc hopen
  have hglue : (runFrom initState es).startTime = openAux none es := by
    rw [← hopen]
    simp [openOf, hrun]
  rw [runFrom_append]
  have hone : runFrom (runFrom initState es) [Event.tick t]
      = step (Event.tick t) (runFrom initState es) := rfl
  rw [hone]
  have hstep : step (Event.tick t) (runFrom initState es)
      = tickStep t (runFrom initState es) := by
    simp [step, hrun]
  rw [hstep]
  obtain ⟨-, -, -, -, -, -, d⟩ := tickStep_proj t (runFrom initState es)
  rw [d, hacc, hglue]
  refine ⟨?_, hrun⟩
  simp [initState]

/-- Claim C1, witness: on the trace start 0, tick 10, pause 20, resume
30 with an observation tick at 45, the last state is running and
displayed reads 20 + (45 - 30) = 35, the completed segment plus the
in-progress one. -/
theorem claim1_witness :
    wfFrom 0 initState
      ([Event.start 0, Event.tick 10, Event.pause 20, Event.start 30]
        ++ [Event.tick 45]) = true ∧
    resetFree
      ([Event.start 0, Event.tick 10, Event.pause 20, Event.start 30]
        ++ [Event.tick 45]) = true ∧
    ((runFrom initState
        ([Event.start 0, Event.tick 10, Event.pause 20, Event.start 30]
          ++ [Event.tick 45])).displayTime
      = segsAux none [Event.start 0, Event.tick 10, Event.pause 20, Event.start 30]
          + (45 - (openAux none
              [Event.start 0, Event.tick 10, Event.pause 20,
                Event.start 30]).getD 0) ∧
     (runFrom initState
        [Event.start 0, Event.tick 10, Event.pause 20, Event.start 30]).isRunning
       = true) :=
  ⟨by decide, by decide,
    claim1_displayed_at_tick
      [Event.start 0, Event.tick 10, Event.pause 20, Event.start 30] 45
      (by decide) (by decide)⟩

end ProTimer
